import Mathlib

/-!
# Verification of the Guitar-Hero-React chart pipeline and judgment engine

Shallow embedding of the chart ingestion pipeline (`ChartParser`, `MidiParser`
in the repository's chart/MIDI parser module) and the real-time judgment
engine (`useGuitarGame.hook.ts`), with theorems settling the frozen
specification claims.  JavaScript numbers are modelled as rationals;
`parseFloat(x.toFixed(3))` is modelled by `round3` (round half towards
positive infinity at the third decimal, which is exactly the ECMAScript
`toFixed` tie-breaking rule "pick the larger n").
-/

/-- `parseFloat(x.toFixed(3))`: round to three decimals, ties towards `+∞`. -/
def round3 (q : ℚ) : ℚ := (⌊q * 1000 + 1 / 2⌋ : ℚ) / 1000

/-- `parseFloat(x.toFixed(2))`: round to two decimals, ties towards `+∞`. -/
def round2 (q : ℚ) : ℚ := (⌊q * 100 + 1 / 2⌋ : ℚ) / 100

-- ==========================================================================
-- Definitions (shallow embedding of the source)
-- ==========================================================================

namespace ChartParser

/-- One `SyncTrack` entry `tick = B microBPM`, stored by `parseSyncTrack` as
`{ beat: parseInt(tick), bpm: microBPM / 1000 }`. -/
structure BPMChange where
  beat : ℕ
  bpm : ℚ
deriving Repr, DecidableEq

/-- One note line `tick = N lane sustain` kept by `parseNote`. -/
structure ChartNote where
  beat : ℕ
  carril : ℕ
  sustainBeats : ℕ
deriving Repr, DecidableEq

/-- The `for (const sync of this.bpmTrack)` scan shared by `beatsToSeconds`
and `beatsDurationToSeconds`: each entry with `sync.beat <= beat` becomes the
new active BPM, and the scan `break`s at the first later entry.  The
accumulator starts at the default 120. -/
def activeBPM (beat : ℕ) (acc : ℚ) : List BPMChange → ℚ
  | [] => acc
  | s :: rest => if s.beat ≤ beat then activeBPM beat s.bpm rest else acc

/-- `ChartParser.beatsToSeconds`: the whole position is converted with the
single BPM active at `beat` (no segment-by-segment accumulation). -/
def beatsToSeconds (bpmTrack : List BPMChange) (resolution : ℚ) (beat : ℕ) : ℚ :=
  round3 ((beat : ℚ) / resolution / activeBPM beat 120 bpmTrack * 60)

/-- `ChartParser.beatsDurationToSeconds`. -/
def beatsDurationToSeconds (bpmTrack : List BPMChange) (resolution : ℚ)
    (startBeat durationBeats : ℕ) : ℚ :=
  if durationBeats = 0 then 0
  else round3 ((durationBeats : ℚ) / resolution / activeBPM startBeat 120 bpmTrack * 60)

end ChartParser

namespace MidiParser

/-- One Set-Tempo meta event: `{ tick, tempo }`, tempo in µs per beat. -/
structure TempoEvent where
  tick : ℕ
  tempo : ℕ
deriving Repr, DecidableEq

/-- The accumulation loop of `MidiParser.ticksToSeconds`: walk the tempo
track, adding each finished segment at the tempo active when it started;
`break` at the first event past `tick`, then add the remaining ticks at the
current tempo. -/
def ticksToSecondsAux (res tick : ℚ) (seconds lastTick currentTempo : ℚ) :
    List TempoEvent → ℚ
  | [] => seconds + (tick - lastTick) / res * (currentTempo / 1000000)
  | e :: rest =>
    if tick < (e.tick : ℚ) then
      seconds + (tick - lastTick) / res * (currentTempo / 1000000)
    else
      ticksToSecondsAux res tick
        (seconds + ((e.tick : ℚ) - lastTick) / res * (currentTempo / 1000000))
        (e.tick : ℚ) (e.tempo : ℚ) rest

/-- `MidiParser.ticksToSeconds`.  With an empty tempo track the code returns
`(tick / resolution) * 0.5` without rounding; otherwise the accumulated sum
is rounded to three decimals. -/
def ticksToSeconds (tempoTrack : List TempoEvent) (res : ℚ) (tick : ℕ) : ℚ :=
  if tempoTrack = [] then (tick : ℚ) / res * (1 / 2)
  else round3 (ticksToSecondsAux res (tick : ℚ) 0 0 500000 tempoTrack)

/-- `MidiParser.ticksDurationToSeconds`. -/
def ticksDurationToSeconds (tempoTrack : List TempoEvent) (res : ℚ)
    (startTick durationTicks : ℕ) : ℚ :=
  ticksToSeconds tempoTrack res (startTick + durationTicks)
    - ticksToSeconds tempoTrack res startTick

end MidiParser

/-- The claim's two-tempo map for the text form: 120 BPM at tick 0, 90 BPM at
tick 192. -/
def c1ChartTrack : List ChartParser.BPMChange := [⟨0, 120⟩, ⟨192, 90⟩]

/-- The claim's two-tempo map for the binary form: 500000 µs/beat (120 BPM)
at tick 0, 666667 µs/beat (90 BPM) at tick 192. -/
def c1MidiTrack : List MidiParser.TempoEvent := [⟨0, 500000⟩, ⟨192, 666667⟩]

/-- A valid tempo map whose BPM increases at tick 192: 120 BPM at 0, 240 BPM
at 192 (entries ascending, all positive). -/
def c2ChartTrack : List ChartParser.BPMChange := [⟨0, 120⟩, ⟨192, 240⟩]

/-- Canonical timeline note `{ segundo, carril, duracion }` shared by both
decoders' `convertToSongData` output and consumed by the game hook. -/
structure SongNote where
  segundo : ℚ
  carril : ℕ
  duracion : ℚ
deriving Repr, DecidableEq

namespace Engine

/-- `HitResult`: the judgment of one press. -/
inductive HitResult where
  | perfect
  | good
  | ok
  | miss
deriving Repr, DecidableEq

/-- `GameNote` of `useGuitarGame.hook.ts` (gameplay state of one note). -/
structure GameNote where
  segundo : ℚ
  carril : ℕ
  y : ℚ
  spawned : Bool
  hit : Bool
  missed : Bool
deriving Repr, DecidableEq

/-- `GameStats`. -/
structure GameStats where
  score : ℕ
  combo : ℕ
  maxCombo : ℕ
  perfects : ℕ
  goods : ℕ
  oks : ℕ
  misses : ℕ
deriving Repr, DecidableEq

/-- `GAME_CONFIG.hitZoneY`. -/
def hitZoneY : ℚ := 500

/-- `GAME_CONFIG.noteRadius`. -/
def noteRadius : ℚ := 25

/-- `SPAWN_Y`. -/
def spawnY : ℚ := -50

/-- `SPAWN_AHEAD_TIME` (seconds). -/
def spawnAheadTime : ℚ := 3

/-- `noteSpeed = (GAME_CONFIG.hitZoneY - SPAWN_Y) / SPAWN_AHEAD_TIME`. -/
def noteSpeed : ℚ := (hitZoneY - spawnY) / spawnAheadTime

/-- `HIT_WINDOWS.perfect`. -/
def windowPerfect : ℚ := 30

/-- `HIT_WINDOWS.good`. -/
def windowGood : ℚ := 60

/-- `HIT_WINDOWS.ok`. -/
def windowOk : ℚ := 100

/-- `getMultiplier`: x4 at combo ≥ 30, x3 at ≥ 20, x2 at ≥ 10, else x1. -/
def multiplier (combo : ℕ) : ℕ :=
  if 30 ≤ combo then 4 else if 20 ≤ combo then 3 else if 10 ≤ combo then 2 else 1

/-- `POINTS` base points per judgment. -/
def basePoints : HitResult → ℕ
  | .perfect => 100
  | .good => 50
  | .ok => 25
  | .miss => 0

/-- `calculatePoints`: 0 on a null result or a miss, otherwise base points
times the combo multiplier. -/
def calculatePoints (result : Option HitResult) (combo : ℕ) : ℕ :=
  match result with
  | none => 0
  | some .miss => 0
  | some r => basePoints r * multiplier combo

/-- The `!note.spawned || note.hit || note.missed` filter, positively. -/
def isActive (n : GameNote) : Bool := n.spawned && !n.hit && !n.missed

/-- `Math.abs(note.y - GAME_CONFIG.hitZoneY)`. -/
def noteDistance (n : GameNote) : ℚ := |n.y - hitZoneY|

/-- `distance < closestDistance && distance <= HIT_WINDOWS.ok`, where
`closestDistance` starts at `Infinity` (the `none` case). -/
def beats (d : ℚ) : Option (ℕ × ℚ) → Prop
  | none => d ≤ windowOk
  | some pr => d < pr.2 ∧ d ≤ windowOk

instance (d : ℚ) (best : Option (ℕ × ℚ)) : Decidable (beats d best) :=
  match best with
  | none => inferInstanceAs (Decidable (d ≤ windowOk))
  | some pr => inferInstanceAs (Decidable (d < pr.2 ∧ d ≤ windowOk))

/-- The `for (const note of gameNotes)` selection loop of `checkHit`:
track the index and distance of the best candidate so far. -/
def findClosestAux (lane : ℕ) : ℕ → Option (ℕ × ℚ) → List GameNote → Option (ℕ × ℚ)
  | _, best, [] => best
  | i, best, n :: rest =>
    if isActive n = true ∧ n.carril = lane ∧ beats (noteDistance n) best then
      findClosestAux lane (i + 1) (some (i, noteDistance n)) rest
    else
      findClosestAux lane (i + 1) best rest

/-- Selection of the closest qualifying note in `checkHit`. -/
def findClosest (lane : ℕ) (notes : List GameNote) : Option (ℕ × ℚ) :=
  findClosestAux lane 0 none notes

/-- `closestNote.hit = true`, as an index update. -/
def markHit : List GameNote → ℕ → List GameNote
  | [], _ => []
  | n :: rest, 0 => { n with hit := true } :: rest
  | n :: rest, i + 1 => n :: markHit rest i

/-- `checkHit(lane)`: select the closest active note of the lane within the
"ok" window; classify by nested thresholds, bump combo and the per-result
counter, add `calculatePoints` (computed after the combo increment), update
max combo, mark the note hit.  With no qualifying note: a miss, combo reset,
notes untouched. -/
def checkHit (lane : ℕ) (notes : List GameNote) (stats : GameStats) :
    List GameNote × GameStats × Option HitResult :=
  match findClosest lane notes with
  | some (i, d) =>
    let result : Option HitResult :=
      if d ≤ windowPerfect then some .perfect
      else if d ≤ windowGood then some .good
      else if d ≤ windowOk then some .ok
      else none
    let stats1 :=
      match result with
      | some .perfect => { stats with combo := stats.combo + 1, perfects := stats.perfects + 1 }
      | some .good => { stats with combo := stats.combo + 1, goods := stats.goods + 1 }
      | some .ok => { stats with combo := stats.combo + 1, oks := stats.oks + 1 }
      | _ => stats
    let points := calculatePoints result stats1.combo
    let stats2 :=
      { stats1 with
        score := stats1.score + points
        maxCombo := if stats1.maxCombo < stats1.combo then stats1.combo else stats1.maxCombo }
    (markHit notes i, stats2, result)
  | none =>
    (notes, { stats with combo := 0, misses := stats.misses + 1 }, some .miss)

/-- `updateNotes(deltaTime)`: move each active note down by
`noteSpeed * deltaTime`; a note past `hitZoneY + noteRadius * 2` becomes
missed, resets the combo and counts a miss. -/
def updateNotesAux (speed dt : ℚ) : List GameNote → GameStats → List GameNote × GameStats
  | [], stats => ([], stats)
  | n :: rest, stats =>
    if isActive n = true then
      if hitZoneY + noteRadius * 2 < n.y + speed * dt then
        let p := updateNotesAux speed dt rest
          { stats with combo := 0, misses := stats.misses + 1 }
        ({ n with y := n.y + speed * dt, missed := true } :: p.1, p.2)
      else
        let p := updateNotesAux speed dt rest stats
        ({ n with y := n.y + speed * dt } :: p.1, p.2)
    else
      let p := updateNotesAux speed dt rest stats
      (n :: p.1, p.2)

/-- `spawnNotes()` from the next-to-spawn suffix: spawn each note due within
the lookahead (placing it by its remaining time to the hit line), stop at the
first note not yet due; returns the new suffix and how many were spawned. -/
def spawnFrom (gameTime : ℚ) : List GameNote → List GameNote × ℕ
  | [] => ([], 0)
  | n :: rest =>
    if n.segundo - spawnAheadTime ≤ gameTime then
      let p := spawnFrom gameTime rest
      ({ n with y := hitZoneY - (n.segundo - gameTime) * noteSpeed, spawned := true } :: p.1,
        p.2 + 1)
    else (n :: rest, 0)

/-- The end-of-song branch of `gameLoop`: every still-active spawned note
becomes missed and counts a miss (combo, score and max combo untouched). -/
def endSongNotes : List GameNote → GameStats → List GameNote × GameStats
  | [], stats => ([], stats)
  | n :: rest, stats =>
    if isActive n = true then
      let p := endSongNotes rest { stats with misses := stats.misses + 1 }
      ({ n with missed := true } :: p.1, p.2)
    else
      let p := endSongNotes rest stats
      (n :: p.1, p.2)

/-- The mutable state of the game hook: the note list, the next-to-spawn
index and the stats. -/
structure EngineState where
  notes : List GameNote
  nextIdx : ℕ
  stats : GameStats
deriving Repr, DecidableEq

/-- The discrete inputs of one session: a lane press (`checkHit`) or one
`gameLoop` frame at a given game time and delta. -/
inductive GameEvent where
  | press (lane : ℕ)
  | frame (gameTime dt : ℚ)

/-- One state transition of the hook: a press runs `checkHit`; a frame either
ends the session (game time has reached the song duration) or spawns and
advances notes. -/
def applyEvent (duration : ℚ) (s : EngineState) : GameEvent → EngineState
  | .press lane =>
    let r := checkHit lane s.notes s.stats
    { s with notes := r.1, stats := r.2.1 }
  | .frame gameTime dt =>
    if duration ≤ gameTime then
      let p := endSongNotes s.notes s.stats
      { s with notes := p.1, stats := p.2 }
    else
      let sp := spawnFrom gameTime (s.notes.drop s.nextIdx)
      let u := updateNotesAux noteSpeed dt (s.notes.take s.nextIdx ++ sp.1) s.stats
      { notes := u.1, nextIdx := s.nextIdx + sp.2, stats := u.2 }

/-- The all-zero `GameStats` the session starts from. -/
def initStats : GameStats :=
  { score := 0, combo := 0, maxCombo := 0, perfects := 0, goods := 0, oks := 0, misses := 0 }

/-- `song.notes.map(...)`: initial `GameNote` for a timeline note. -/
def mkGameNote (sn : SongNote) : GameNote :=
  { segundo := sn.segundo, carril := sn.carril, y := spawnY,
    spawned := false, hit := false, missed := false }

/-- The state at session start. -/
def initState (song : List SongNote) : EngineState :=
  { notes := song.map mkGameNote, nextIdx := 0, stats := initStats }

/-- States reachable from a session start under any event sequence. -/
inductive Reachable (duration : ℚ) (init : EngineState) : EngineState → Prop
  | refl : Reachable duration init init
  | step (s : EngineState) (e : GameEvent) :
      Reachable duration init s → Reachable duration init (applyEvent duration s e)

/-- A spawned note sitting exactly on the hit line in lane 0. -/
def note0 : GameNote :=
  { segundo := 0, carril := 0, y := hitZoneY, spawned := true, hit := false, missed := false }

/-- `note0` after being hit. -/
def hitNote0 : GameNote := { note0 with hit := true }

/-- A spawned lane-0 note far (500 px) from the hit line. -/
def farNote : GameNote :=
  { segundo := 0, carril := 0, y := 0, spawned := true, hit := false, missed := false }

/-- One lane-0 press acting on (notes, stats). -/
def pressLane0 (p : List GameNote × GameStats) : List GameNote × GameStats :=
  ((checkHit 0 p.1 p.2).1, (checkHit 0 p.1 p.2).2.1)

/-- Score accumulated by `checkHit` over N consecutive perfects from combo 0:
the i-th hit pays `100 * multiplier(i)` — the multiplier of the combo *after*
the increment. -/
def perfectRunScore : ℕ → ℕ
  | 0 => 0
  | k + 1 => perfectRunScore k + 100 * multiplier (k + 1)

/-- The claim's formula: `sum i=1..N of 100 * multiplier(i-1)`. -/
def claimedScore : ℕ → ℕ
  | 0 => 0
  | k + 1 => claimedScore k + 100 * multiplier k

/-- Stats after k consecutive perfect presses starting from `initStats`. -/
def runStats (k : ℕ) : GameStats :=
  { score := perfectRunScore k, combo := k, maxCombo := k, perfects := k,
    goods := 0, oks := 0, misses := 0 }

end Engine

namespace AudioPlayer

/-- The refs of `useAudioPlayer`: the audio-context clock (`ctxTime`), the
play anchor (`startTimeRef`), the pause position (`pausedAtRef`), the
calibration offset in milliseconds (`calibrationOffsetRef`) and the
`isPlaying` flag.  A loaded audio context is assumed. -/
structure PlayerState where
  ctxTime : ℚ
  startTime : ℚ
  pausedAt : ℚ
  calibrationOffset : ℚ
  isPlaying : Bool
deriving Repr, DecidableEq

/-- `getCurrentTime()`: the pause position while paused, otherwise the
elapsed time since the anchor plus the calibration offset in seconds. -/
def getCurrentTime (s : PlayerState) : ℚ :=
  if s.isPlaying = false then s.pausedAt
  else s.ctxTime - s.startTime + s.calibrationOffset / 1000

/-- `pause()`: store the current reading in `pausedAtRef`, suspend. -/
def pause (s : PlayerState) : PlayerState :=
  if s.isPlaying = false then s
  else { s with pausedAt := getCurrentTime s, isPlaying := false }

/-- `resume()`: re-anchor `startTimeRef` so the next reading continues from
`pausedAtRef`. -/
def resume (s : PlayerState) : PlayerState :=
  if s.isPlaying = true then s
  else { s with startTime := s.ctxTime - s.pausedAt, isPlaying := true }

/-- Real time passing: the audio-context clock advances by `gap`.  (The real
`AudioContext.currentTime` freezes while suspended; letting it advance
arbitrarily here only strengthens the statements, which hold for every gap.) -/
def advance (gap : ℚ) (s : PlayerState) : PlayerState :=
  { s with ctxTime := s.ctxTime + gap }

/-- `play(fromTime)`: new anchor at the current clock, `pausedAtRef` set to
the requested start position. -/
def play (fromTime : ℚ) (s : PlayerState) : PlayerState :=
  { s with startTime := s.ctxTime, pausedAt := fromTime, isPlaying := true }

/-- A playing state with a 100 ms calibration offset whose current reading is
exactly 10 s. -/
def c9State : PlayerState :=
  { ctxTime := 20, startTime := 101 / 10, pausedAt := 0,
    calibrationOffset := 100, isPlaying := true }

/-- A playing state with zero calibration offset, reading 10 s. -/
def c9ZeroState : PlayerState :=
  { ctxTime := 20, startTime := 10, pausedAt := 0,
    calibrationOffset := 0, isPlaying := true }

end AudioPlayer

namespace MidiParser

/-- The two failure modes of the binary decoder: a thrown format error
(`throw new Error(...)`) or an out-of-bounds `DataView` read (a
`RangeError`, distinct from the decoder's own errors). -/
inductive MidiError where
  | formatError (msg : String)
  | rangeError
deriving Repr, DecidableEq

/-- `readUint8` at the cursor.  The source advances an integer position into
the byte buffer; here the cursor is represented by the remaining suffix, so
one byte is consumed per read. -/
def readUint8 : List ℕ → Except MidiError (ℕ × List ℕ)
  | [] => .error .rangeError
  | b :: rest => .ok (b, rest)

/-- `readUint16` (big endian). -/
def readUint16 (buf : List ℕ) : Except MidiError (ℕ × List ℕ) := do
  let (b1, r) ← readUint8 buf
  let (b2, r) ← readUint8 r
  pure (b1 * 256 + b2, r)

/-- `readUint32` (big endian). -/
def readUint32 (buf : List ℕ) : Except MidiError (ℕ × List ℕ) := do
  let (b1, r) ← readUint8 buf
  let (b2, r) ← readUint8 r
  let (b3, r) ← readUint8 r
  let (b4, r) ← readUint8 r
  pure (b1 * 16777216 + b2 * 65536 + b3 * 256 + b4, r)

/-- `MidiParser.parseHeader`: validate the 4-byte "MThd" magic (the string
comparison of `readString(4)` is byte-wise equality with codes 77, 84, 104,
100), the fixed header length 6, read format (ignored), track count and the
time division; a set top bit of the division (SMPTE timing) is fatal.
Returns `(format, trackCount, resolution)`. -/
def parseHeader (buf : List ℕ) : Except MidiError (ℕ × ℕ × ℕ) := do
  let (m0, r) ← readUint8 buf
  let (m1, r) ← readUint8 r
  let (m2, r) ← readUint8 r
  let (m3, r) ← readUint8 r
  if ¬(m0 = 77 ∧ m1 = 84 ∧ m2 = 104 ∧ m3 = 100) then
    throw (MidiError.formatError "No es un archivo MIDI valido")
  else do
    let (headerLength, r) ← readUint32 r
    if headerLength ≠ 6 then
      throw (MidiError.formatError "Header MIDI invalido")
    else do
      let (format, r) ← readUint16 r
      let (trackCount, r) ← readUint16 r
      let (resolution, _) ← readUint16 r
      if Nat.testBit resolution 15 then
        throw (MidiError.formatError "SMPTE timing no soportado")
      else
        pure (format, trackCount, resolution)

end MidiParser

/-- The four difficulty tiers of both parsers. -/
inductive Difficulty where
  | easy
  | medium
  | hard
  | expert
deriving Repr, DecidableEq

/-- The canonical timeline produced by either decoder's `convertToSongData`.
Only the `notes` sequence is modelled; the accompanying metadata object
(names, duration, NPS statistics) is not examined by any claim. -/
structure SongData where
  notes : List SongNote
deriving Repr, DecidableEq

namespace MidiParser

/-- One raw Note-On/Off event collected by `parseTrack`. -/
structure NoteEvent where
  tick : ℕ
  note : ℕ
  velocity : ℕ
  isOn : Bool
deriving Repr, DecidableEq

/-- One extracted note of `extractNotes`. -/
structure ParsedNote where
  tick : ℕ
  carril : ℕ
  duration : ℕ
deriving Repr, DecidableEq

/-- `GUITAR_NOTE_MAP`: five contiguous note numbers per tier, to lanes 0-4. -/
def GUITAR_NOTE_MAP : Difficulty → ℕ → Option ℕ
  | .easy, n =>
    if n = 60 then some 0 else if n = 61 then some 1 else if n = 62 then some 2
    else if n = 63 then some 3 else if n = 64 then some 4 else none
  | .medium, n =>
    if n = 72 then some 0 else if n = 73 then some 1 else if n = 74 then some 2
    else if n = 75 then some 3 else if n = 76 then some 4 else none
  | .hard, n =>
    if n = 84 then some 0 else if n = 85 then some 1 else if n = 86 then some 2
    else if n = 87 then some 3 else if n = 88 then some 4 else none
  | .expert, n =>
    if n = 96 then some 0 else if n = 97 then some 1 else if n = 98 then some 2
    else if n = 99 then some 3 else if n = 100 then some 4 else none

/-- `DRUMS_NOTE_MAP`: the source duplicates the same table for drums. -/
def DRUMS_NOTE_MAP : Difficulty → ℕ → Option ℕ
  | .easy, n =>
    if n = 60 then some 0 else if n = 61 then some 1 else if n = 62 then some 2
    else if n = 63 then some 3 else if n = 64 then some 4 else none
  | .medium, n =>
    if n = 72 then some 0 else if n = 73 then some 1 else if n = 74 then some 2
    else if n = 75 then some 3 else if n = 76 then some 4 else none
  | .hard, n =>
    if n = 84 then some 0 else if n = 85 then some 1 else if n = 86 then some 2
    else if n = 87 then some 3 else if n = 88 then some 4 else none
  | .expert, n =>
    if n = 96 then some 0 else if n = 97 then some 1 else if n = 98 then some 2
    else if n = 99 then some 3 else if n = 100 then some 4 else none

/-- `DRUM_LIKE_INSTRUMENTS`. -/
def DRUM_LIKE_INSTRUMENTS : List String := ["PART DRUMS"]

/-- JS `Map.get`, on an insertion-ordered association list. -/
def mapGet (m : List (ℕ × ℕ)) (k : ℕ) : Option ℕ :=
  (m.find? (fun p => p.1 == k)).map (fun p => p.2)

/-- JS `Map.set`: update in place if the key exists, else append. -/
def mapSet : List (ℕ × ℕ) → ℕ → ℕ → List (ℕ × ℕ)
  | [], k, v => [(k, v)]
  | p :: rest, k, v => if p.1 = k then (k, v) :: rest else p :: mapSet rest k v

/-- JS `Map.delete`. -/
def mapDelete (m : List (ℕ × ℕ)) (k : ℕ) : List (ℕ × ℕ) :=
  m.filter (fun p => !(p.1 == k))

/-- One iteration of the `for (const event of events)` loop of
`extractNotes`, acting on (collected notes, open-note map).  Unmapped note
numbers are skipped.  Note-On with the number already open closes the
previous note at the new tick (dropping it when not strictly positive) and
re-opens.  Note-Off closes with the elapsed ticks, or with the minimum
sustain `max 1 (resolution / 8)` (1/8 beat, at least one tick) when the
elapsed ticks are exactly zero, and removes the entry either way. -/
def extractStep (resolution : ℕ) (noteMap : ℕ → Option ℕ)
    (st : List ParsedNote × List (ℕ × ℕ)) (e : NoteEvent) :
    List ParsedNote × List (ℕ × ℕ) :=
  match noteMap e.note with
  | none => st
  | some carril =>
    if e.isOn = true then
      match mapGet st.2 e.note with
      | some prevStartTick =>
        if prevStartTick < e.tick then
          (st.1 ++ [⟨prevStartTick, carril, e.tick - prevStartTick⟩],
            mapSet st.2 e.note e.tick)
        else
          (st.1, mapSet st.2 e.note e.tick)
      | none => (st.1, mapSet st.2 e.note e.tick)
    else
      match mapGet st.2 e.note with
      | some startTick =>
        if startTick < e.tick then
          (st.1 ++ [⟨startTick, carril, e.tick - startTick⟩], mapDelete st.2 e.note)
        else if e.tick = startTick then
          (st.1 ++ [⟨startTick, carril, max 1 (resolution / 8)⟩],
            mapDelete st.2 e.note)
        else
          (st.1, mapDelete st.2 e.note)
      | none => st

/-- Closing the notes still open at the end of the track at the last event's
tick (`Math.max(1, lastTick - startTick)`; natural subtraction truncates at 0
exactly like the JS `Math.max(1, …)` guard). -/
def closeLeftovers (noteMap : ℕ → Option ℕ) (lastTick : ℕ)
    (st : List ParsedNote × List (ℕ × ℕ)) : List ParsedNote :=
  st.1 ++ st.2.filterMap (fun p =>
    (noteMap p.1).map (fun c => ⟨p.2, c, max 1 (lastTick - p.2)⟩))

/-- `extractNotes` on a chosen event list and note map: fold the per-event
step, close leftovers when both the open map and the event list are
non-empty, sort ascending by tick. -/
def extractNotes (resolution : ℕ) (noteMap : ℕ → Option ℕ)
    (events : List NoteEvent) : List ParsedNote :=
  let st := events.foldl (extractStep resolution noteMap) ([], [])
  let closed :=
    match events.getLast? with
    | some lastEvent =>
      if st.2 ≠ [] then closeLeftovers noteMap lastEvent.tick st else st.1
    | none => st.1
  List.insertionSort (fun a b => a.tick ≤ b.tick) closed

/-- JS `Map.get` on the track map. -/
def tracksGet (tracks : List (String × List NoteEvent)) (name : String) :
    Option (List NoteEvent) :=
  (tracks.find? (fun p => p.1 == name)).map (fun p => p.2)

/-- The track-selection fallback of `extractNotes`: the requested track, else
"PART GUITAR", else "PART BASS". -/
def selectEvents (tracks : List (String × List NoteEvent)) (trackName : String) :
    Option (List NoteEvent) :=
  match tracksGet tracks trackName with
  | some e => some e
  | none =>
    match tracksGet tracks "PART GUITAR" with
    | some e => some e
    | none => tracksGet tracks "PART BASS"

/-- `MidiParser.extractNotes(difficulty, trackName)` with the instrument-
dependent note map. -/
def extractNotesFrom (resolution : ℕ) (tracks : List (String × List NoteEvent))
    (difficulty : Difficulty) (trackName : String) : List ParsedNote :=
  match selectEvents tracks trackName with
  | none => []
  | some events =>
    let noteMap :=
      if DRUM_LIKE_INSTRUMENTS.contains trackName then DRUMS_NOTE_MAP difficulty
      else GUITAR_NOTE_MAP difficulty
    extractNotes resolution noteMap events

/-- `MidiParser.convertToSongData`: null when the chosen difficulty has no
notes, otherwise the extracted notes converted to seconds in tick order (the
binary path does not re-sort; the extraction already sorted by tick). -/
def convertToSongData (tempoTrack : List TempoEvent) (resolution : ℕ)
    (tracks : List (String × List NoteEvent)) (difficulty : Difficulty)
    (trackName : String) : Option SongData :=
  let notes := extractNotesFrom resolution tracks difficulty trackName
  if notes = [] then none
  else
    some ⟨notes.map (fun n =>
      ⟨ticksToSeconds tempoTrack (resolution : ℚ) n.tick, n.carril,
        ticksDurationToSeconds tempoTrack (resolution : ℚ) n.tick n.duration⟩)⟩

end MidiParser

namespace ChartParser

/-- The parser state relevant to `convertToSongData`: resolution, tempo
track and the four per-difficulty note lists, as filled in by `parse`. -/
structure ChartState where
  resolution : ℕ
  bpmTrack : List BPMChange
  easy : List ChartNote
  medium : List ChartNote
  hard : List ChartNote
  expert : List ChartNote
deriving Repr, DecidableEq

/-- `this.difficulties[difficulty]`. -/
def diffNotes (st : ChartState) : Difficulty → List ChartNote
  | .easy => st.easy
  | .medium => st.medium
  | .hard => st.hard
  | .expert => st.expert

/-- `ChartParser.convertToSongData`: null when the difficulty has no notes,
otherwise the notes converted to seconds and sorted ascending by time. -/
def convertToSongData (st : ChartState) (d : Difficulty) : Option SongData :=
  let notes := diffNotes st d
  if notes = [] then none
  else
    some ⟨List.insertionSort (fun a b => a.segundo ≤ b.segundo)
      (notes.map (fun n =>
        ⟨beatsToSeconds st.bpmTrack (st.resolution : ℚ) n.beat, n.carril,
          beatsDurationToSeconds st.bpmTrack (st.resolution : ℚ) n.beat n.sustainBeats⟩))⟩

/-- `skip \s*`: munch a maximal whitespace run. -/
def skipWS : List Char → List Char
  | [] => []
  | c :: rest => if c.isWhitespace then skipWS rest else c :: rest

/-- Decimal accumulation of a maximal digit run (like `parseInt`). -/
def digitsAux : List Char → ℕ → ℕ × List Char
  | [], acc => (acc, [])
  | c :: rest, acc =>
    if c.isDigit then digitsAux rest (acc * 10 + (c.toNat - 48)) else (acc, c :: rest)

/-- `\d+`: at least one digit, maximal munch. -/
def readDigits : List Char → Option (ℕ × List Char)
  | [] => none
  | c :: rest => if c.isDigit then some (digitsAux (c :: rest) 0) else none

/-- One required literal character. -/
def expectChar (c : Char) : List Char → Option (List Char)
  | [] => none
  | x :: rest => if x = c then some rest else none

/-- `\s+`: at least one whitespace character, maximal munch. -/
def readWS1 : List Char → Option (List Char)
  | [] => none
  | c :: rest => if c.isWhitespace then some (skipWS rest) else none

/-- The regex of `parseNote`, `(\d+)\s*=\s*N\s+(\d+)\s+(\d+)`, matched at
one position.  For this pattern maximal munch coincides with the regex's
greedy-with-backtracking semantics: after a maximal digit or whitespace run
the next required character is never of the same class. -/
def matchNoteAt (cs : List Char) : Option (ℕ × ℕ × ℕ) := do
  let (tick, r) ← readDigits cs
  let r := skipWS r
  let r ← expectChar '=' r
  let r := skipWS r
  let r ← expectChar 'N' r
  let r ← readWS1 r
  let (lane, r) ← readDigits r
  let r ← readWS1 r
  let (sustain, _) ← readDigits r
  pure (tick, lane, sustain)

/-- `String.prototype.match`: the leftmost position where the pattern
matches. -/
def searchNote : List Char → Option (ℕ × ℕ × ℕ)
  | [] => none
  | c :: rest =>
    match matchNoteAt (c :: rest) with
    | some r => some r
    | none => searchNote rest

/-- `ChartParser.parseNote`: on a matching line, keep the note only when the
lane code is below 5 (codes 5 and 6 are forced-strum/tap modifiers); on no
match, the line is skipped. -/
def parseNote (line : String) (notes : List ChartNote) : List ChartNote :=
  match searchNote line.toList with
  | some (beat, carril, sustain) =>
    if carril < 5 then notes ++ [⟨beat, carril, sustain⟩] else notes
  | none => notes

end ChartParser

instance : IsTotal SongNote (fun a b => a.segundo ≤ b.segundo) :=
  ⟨fun a b => le_total a.segundo b.segundo⟩

instance : IsTrans SongNote (fun a b => a.segundo ≤ b.segundo) :=
  ⟨fun _ _ _ h1 h2 => le_trans h1 h2⟩

instance : IsTotal MidiParser.ParsedNote (fun a b => a.tick ≤ b.tick) :=
  ⟨fun a b => le_total a.tick b.tick⟩

instance : IsTrans MidiParser.ParsedNote (fun a b => a.tick ≤ b.tick) :=
  ⟨fun _ _ _ h1 h2 => le_trans h1 h2⟩

/-- A note map sending note number 96 to lane 0 (witness input). -/
def c6Map : ℕ → Option ℕ := fun n => if n = 96 then some 0 else none

/-- Extraction state with note 96 open since tick 100 (witness input). -/
def c6State : List MidiParser.ParsedNote × List (ℕ × ℕ) := ([], [(96, 100)])

/-- A Note-Off for note 96 at tick 100 — the same tick it was opened at. -/
def c6Event : MidiParser.NoteEvent := ⟨100, 96, 0, false⟩

/-- A Note-Off for note 96 at tick 250, 150 ticks after it was opened. -/
def c6EventLater : MidiParser.NoteEvent := ⟨250, 96, 0, false⟩

/-- A chart state with a single easy note at tick 0 in lane 2 (witness). -/
def c8ChartState : ChartParser.ChartState :=
  { resolution := 192, bpmTrack := [], easy := [⟨0, 2, 0⟩],
    medium := [], hard := [], expert := [] }

/-- Its timeline: one note at 0 s, lane 2, no sustain. -/
def c8ChartSd : SongData := ⟨[⟨0, 2, 0⟩]⟩

/-- A guitar track with one expert note (number 96) held for 96 ticks. -/
def c8Tracks : List (String × List MidiParser.NoteEvent) :=
  [("PART GUITAR", [⟨0, 96, 64, true⟩, ⟨96, 96, 64, false⟩])]

/-- Its timeline at resolution 192 with no tempo events: one note at 0 s,
lane 0, sustained 0.25 s. -/
def c8MidiSd : SongData := ⟨[⟨0, 0, 1 / 4⟩]⟩

-- ==========================================================================
-- Theorems
-- ==========================================================================

theorem round3_mono {a b : ℚ} (h : a ≤ b) : round3 a ≤ round3 b := by
  unfold round3
  have hf : (⌊a * 1000 + 1 / 2⌋ : ℤ) ≤ ⌊b * 1000 + 1 / 2⌋ := by
    apply Int.floor_mono
    nlinarith
  have h2 : ((⌊a * 1000 + 1 / 2⌋ : ℤ) : ℚ) ≤ ((⌊b * 1000 + 1 / 2⌋ : ℤ) : ℚ) := by
    exact_mod_cast hf
  linarith

theorem round3_zero : round3 0 = 0 := by norm_num [round3]

theorem round3_nonneg {a : ℚ} (h : 0 ≤ a) : 0 ≤ round3 a :=
  round3_zero ▸ round3_mono h

theorem seg_nonneg {a b res tempo : ℚ} (h : b ≤ a) (hres : 0 < res)
    (htempo : 0 ≤ tempo) : 0 ≤ (a - b) / res * (tempo / 1000000) :=
  mul_nonneg (div_nonneg (by linarith) hres.le) (by positivity)

/-- Evaluation rule for `round3` at a concrete rational. -/
theorem round3_eq (q : ℚ) (n : ℤ) (h1 : (n : ℚ) ≤ q * 1000 + 1 / 2)
    (h2 : q * 1000 + 1 / 2 < n + 1) : round3 q = (n : ℚ) / 1000 := by
  unfold round3
  rw [Int.floor_eq_iff.mpr ⟨h1, h2⟩]

theorem chart_c1_eval : ChartParser.beatsToSeconds c1ChartTrack 192 384 = 1333 / 1000 := by
  have h : ChartParser.activeBPM 384 120 c1ChartTrack = 90 := by
    norm_num [c1ChartTrack, ChartParser.activeBPM]
  unfold ChartParser.beatsToSeconds
  rw [h]
  have he := round3_eq (((384 : ℕ) : ℚ) / 192 / 90 * 60) 1333
    (by push_cast; norm_num) (by push_cast; norm_num)
  rw [he]
  norm_num

theorem midi_c1_eval : MidiParser.ticksToSeconds c1MidiTrack 192 384 = 1167 / 1000 := by
  have h : MidiParser.ticksToSecondsAux 192 ((384 : ℕ) : ℚ) 0 0 500000 c1MidiTrack
      = 1166667 / 1000000 := by
    norm_num [c1MidiTrack, MidiParser.ticksToSecondsAux]
  unfold MidiParser.ticksToSeconds
  rw [if_neg (by simp [c1MidiTrack]), h]
  have he := round3_eq ((1166667 : ℚ) / 1000000) 1167 (by norm_num) (by norm_num)
  rw [he]
  norm_num

/-- C1: the spec example claims both converters place tick 384 of the map
[(0, 120 BPM), (192, 90 BPM)] (resolution 192) at 1.667 s.  In the code,
`ChartParser.beatsToSeconds` yields 1.333 s (it applies only the tempo active
at the target beat) and `MidiParser.ticksToSeconds` yields 1.167 s
(segment-by-segment: 0.5 s for the first beat at 120 BPM plus 0.667 s for the
second at 90 BPM); neither equals 1.667 s. -/
theorem C1_counterexample :
    ChartParser.beatsToSeconds c1ChartTrack 192 384 ≠ 1667 / 1000 ∧
    MidiParser.ticksToSeconds c1MidiTrack 192 384 ≠ 1667 / 1000 := by
  rw [chart_c1_eval, midi_c1_eval]
  norm_num

/-- C1 (amended): `MidiParser.ticksToSeconds` accumulates elapsed seconds
segment by segment with the tempo active at the start of each segment and
places tick 384 of the example map at 1.167 s; `ChartParser.beatsToSeconds`
instead converts the entire position with the single tempo active at the
target beat and places it at 1.333 s. -/
theorem C1_amended_thm :
    ChartParser.beatsToSeconds c1ChartTrack 192 384 = 1333 / 1000 ∧
    MidiParser.ticksToSeconds c1MidiTrack 192 384 = 1167 / 1000 :=
  ⟨chart_c1_eval, midi_c1_eval⟩

namespace MidiParser

/-- The accumulated seconds never decrease below the accumulator: every
segment the loop adds is non-negative under a valid tempo map. -/
theorem ticksToSecondsAux_ge {res : ℚ} (hres : 0 < res) :
    ∀ (evs : List TempoEvent) (t s lt tempo : ℚ), 0 < tempo → lt ≤ t →
      (∀ e ∈ evs, 0 < (e.tempo : ℚ)) → (∀ e ∈ evs, lt ≤ (e.tick : ℚ)) →
      evs.Pairwise (fun a b => a.tick ≤ b.tick) →
      s ≤ ticksToSecondsAux res t s lt tempo evs
  | [], t, s, lt, tempo, htempo, hlt, _, _, _ => by
    unfold ticksToSecondsAux
    have := seg_nonneg hlt hres htempo.le
    linarith
  | e :: rest, t, s, lt, tempo, htempo, hlt, hpos, hlb, hsort => by
    unfold ticksToSecondsAux
    by_cases hb : t < (e.tick : ℚ)
    · rw [if_pos hb]
      have := seg_nonneg hlt hres htempo.le
      linarith
    · rw [if_neg hb]
      push_neg at hb
      have hetick : lt ≤ (e.tick : ℚ) := hlb e (List.mem_cons_self e rest)
      have hseg := seg_nonneg hetick hres htempo.le
      have hrec :
          s + ((e.tick : ℚ) - lt) / res * (tempo / 1000000) ≤
            ticksToSecondsAux res t
              (s + ((e.tick : ℚ) - lt) / res * (tempo / 1000000))
              (e.tick : ℚ) (e.tempo : ℚ) rest := by
        apply ticksToSecondsAux_ge hres rest t _ _ _
          (hpos e (List.mem_cons_self e rest)) hb
          (fun x hx => hpos x (List.mem_cons_of_mem e hx))
          (fun x hx => by exact_mod_cast (List.pairwise_cons.mp hsort).1 x hx)
          (List.pairwise_cons.mp hsort).2
      linarith

/-- Monotonicity of the accumulation loop in the target tick. -/
theorem ticksToSecondsAux_mono {res : ℚ} (hres : 0 < res) :
    ∀ (evs : List TempoEvent) (t1 t2 s lt tempo : ℚ), 0 < tempo →
      (∀ e ∈ evs, 0 < (e.tempo : ℚ)) → (∀ e ∈ evs, lt ≤ (e.tick : ℚ)) →
      evs.Pairwise (fun a b => a.tick ≤ b.tick) →
      lt ≤ t1 → t1 ≤ t2 →
      ticksToSecondsAux res t1 s lt tempo evs ≤
        ticksToSecondsAux res t2 s lt tempo evs
  | [], t1, t2, s, lt, tempo, htempo, _, _, _, hlt, h12 => by
    unfold ticksToSecondsAux
    have : (t1 - lt) / res * (tempo / 1000000) ≤ (t2 - lt) / res * (tempo / 1000000) := by
      apply mul_le_mul_of_nonneg_right _ (by positivity)
      exact (div_le_div_iff_of_pos_right hres).mpr (by linarith)
    linarith
  | e :: rest, t1, t2, s, lt, tempo, htempo, hpos, hlb, hsort, hlt, h12 => by
    unfold ticksToSecondsAux
    by_cases hb2 : t2 < (e.tick : ℚ)
    · have hb1 : t1 < (e.tick : ℚ) := lt_of_le_of_lt h12 hb2
      rw [if_pos hb1, if_pos hb2]
      have : (t1 - lt) / res * (tempo / 1000000) ≤ (t2 - lt) / res * (tempo / 1000000) := by
        apply mul_le_mul_of_nonneg_right _ (by positivity)
        exact (div_le_div_iff_of_pos_right hres).mpr (by linarith)
      linarith
    · rw [if_neg hb2]
      push_neg at hb2
      have hetick : lt ≤ (e.tick : ℚ) := hlb e (List.mem_cons_self e rest)
      by_cases hb1 : t1 < (e.tick : ℚ)
      · rw [if_pos hb1]
        have hstep : s + (t1 - lt) / res * (tempo / 1000000) ≤
            s + ((e.tick : ℚ) - lt) / res * (tempo / 1000000) := by
          have : (t1 - lt) / res * (tempo / 1000000) ≤
              ((e.tick : ℚ) - lt) / res * (tempo / 1000000) := by
            apply mul_le_mul_of_nonneg_right _ (by positivity)
            exact (div_le_div_iff_of_pos_right hres).mpr (by linarith)
          linarith
        have hrec := ticksToSecondsAux_ge hres rest t2
          (s + ((e.tick : ℚ) - lt) / res * (tempo / 1000000))
          (e.tick : ℚ) (e.tempo : ℚ)
          (hpos e (List.mem_cons_self e rest)) hb2
          (fun x hx => hpos x (List.mem_cons_of_mem e hx))
          (fun x hx => by exact_mod_cast (List.pairwise_cons.mp hsort).1 x hx)
          (List.pairwise_cons.mp hsort).2
        linarith
      · rw [if_neg hb1]
        push_neg at hb1
        exact ticksToSecondsAux_mono hres rest t1 t2 _ _ _
          (hpos e (List.mem_cons_self e rest))
          (fun x hx => hpos x (List.mem_cons_of_mem e hx))
          (fun x hx => by exact_mod_cast (List.pairwise_cons.mp hsort).1 x hx)
          (List.pairwise_cons.mp hsort).2 hb1 h12

/-- `MidiParser.ticksToSeconds` is monotone non-decreasing in the tick for
every valid tempo map (positive resolution, positive tempos, ticks ordered
non-decreasingly). -/
theorem ticksToSeconds_mono (tempoTrack : List TempoEvent) {res : ℚ}
    (hres : 0 < res) (hpos : ∀ e ∈ tempoTrack, 0 < e.tempo)
    (hsort : tempoTrack.Pairwise (fun a b => a.tick ≤ b.tick))
    {t1 t2 : ℕ} (h12 : t1 ≤ t2) :
    ticksToSeconds tempoTrack res t1 ≤ ticksToSeconds tempoTrack res t2 := by
  unfold ticksToSeconds
  by_cases hnil : tempoTrack = []
  · rw [if_pos hnil, if_pos hnil]
    apply mul_le_mul_of_nonneg_right _ (by norm_num)
    exact (div_le_div_iff_of_pos_right hres).mpr (by exact_mod_cast h12)
  · rw [if_neg hnil, if_neg hnil]
    apply round3_mono
    exact ticksToSecondsAux_mono hres tempoTrack _ _ 0 0 500000 (by norm_num)
      (fun e he => by exact_mod_cast hpos e he)
      (fun e he => by positivity) hsort (by positivity) (by exact_mod_cast h12)

end MidiParser

theorem chart_c2_eval_191 :
    ChartParser.beatsToSeconds c2ChartTrack 192 191 = 497 / 1000 := by
  have h : ChartParser.activeBPM 191 120 c2ChartTrack = 120 := by
    norm_num [c2ChartTrack, ChartParser.activeBPM]
  unfold ChartParser.beatsToSeconds
  rw [h]
  have he := round3_eq (((191 : ℕ) : ℚ) / 192 / 120 * 60) 497
    (by push_cast; norm_num) (by push_cast; norm_num)
  rw [he]
  norm_num

theorem chart_c2_eval_192 :
    ChartParser.beatsToSeconds c2ChartTrack 192 192 = 250 / 1000 := by
  have h : ChartParser.activeBPM 192 120 c2ChartTrack = 240 := by
    norm_num [c2ChartTrack, ChartParser.activeBPM]
  unfold ChartParser.beatsToSeconds
  rw [h]
  have he := round3_eq (((192 : ℕ) : ℚ) / 192 / 240 * 60) 250
    (by push_cast; norm_num) (by push_cast; norm_num)
  rw [he]
  norm_num

/-- C2: position-to-seconds conversion is not monotonic for
`ChartParser.beatsToSeconds`.  On the valid tempo map [(0, 120 BPM),
(192, 240 BPM)] with resolution 192, position 191 converts to 0.497 s but
position 192 converts to 0.25 s, so `p1 <= p2` does not imply
`secondsAt(p1) <= secondsAt(p2)`. -/
theorem C2_counterexample :
    (∀ e ∈ c2ChartTrack, 0 < e.bpm) ∧
    c2ChartTrack.Pairwise (fun a b => a.beat ≤ b.beat) ∧
    (191 : ℕ) ≤ 192 ∧
    ChartParser.beatsToSeconds c2ChartTrack 192 192 <
      ChartParser.beatsToSeconds c2ChartTrack 192 191 := by
  refine ⟨?_, ?_, by norm_num, ?_⟩
  · intro e he
    simp only [c2ChartTrack, List.mem_cons, List.mem_singleton] at he
    rcases he with h | h | h
    · rw [h]; norm_num
    · rw [h]; norm_num
    · cases h
  · simp [c2ChartTrack, List.pairwise_cons]
  · rw [chart_c2_eval_191, chart_c2_eval_192]
    norm_num

/-- C2 (amended): `MidiParser.ticksToSeconds` is monotonic non-decreasing in
the position for every valid tempo map (positive resolution, positive tempo
values, event positions ordered ascending); `ChartParser.beatsToSeconds` is
not monotonic, because it converts the entire position with the single tempo
active at the target beat — on the valid map [(0, 120 BPM), (192, 240 BPM)]
it maps position 192 strictly below position 191. -/
theorem C2_thm :
    (∀ (tempoTrack : List MidiParser.TempoEvent) (res : ℚ) (t1 t2 : ℕ),
        0 < res → (∀ e ∈ tempoTrack, 0 < e.tempo) →
        tempoTrack.Pairwise (fun a b => a.tick ≤ b.tick) → t1 ≤ t2 →
        MidiParser.ticksToSeconds tempoTrack res t1 ≤
          MidiParser.ticksToSeconds tempoTrack res t2) ∧
    ChartParser.beatsToSeconds c2ChartTrack 192 192 <
      ChartParser.beatsToSeconds c2ChartTrack 192 191 := by
  constructor
  · intro tempoTrack res t1 t2 hres hpos hsort h12
    exact MidiParser.ticksToSeconds_mono tempoTrack hres hpos hsort h12
  · rw [chart_c2_eval_191, chart_c2_eval_192]
    norm_num

/-- Witness for C2_thm: the monotonicity half applied at a concrete valid
tempo map and concrete positions 100 ≤ 200. -/
theorem C2_thm_witness :
    MidiParser.ticksToSeconds c1MidiTrack 192 100 ≤
      MidiParser.ticksToSeconds c1MidiTrack 192 200 := by
  apply C2_thm.1 c1MidiTrack 192 100 200 (by norm_num)
  · intro e he
    simp only [c1MidiTrack, List.mem_cons, List.mem_singleton] at he
    rcases he with h | h | h
    · rw [h]; norm_num
    · rw [h]; norm_num
    · cases h
  · simp [c1MidiTrack, List.pairwise_cons]
  · norm_num

namespace Engine

/-- If no active note of the lane is within the "ok" window, the selection
loop never replaces its (empty) best candidate. -/
theorem findClosestAux_none (lane : ℕ) :
    ∀ (l : List GameNote) (i : ℕ),
      (∀ n ∈ l, isActive n = true → n.carril = lane → ¬(noteDistance n ≤ windowOk)) →
      findClosestAux lane i none l = none
  | [], _, _ => rfl
  | n :: rest, i, h => by
    unfold findClosestAux
    rw [if_neg]
    · exact findClosestAux_none lane rest (i + 1)
        (fun m hm => h m (List.mem_cons_of_mem n hm))
    · rintro ⟨ha, hc, hb⟩
      exact h n (List.mem_cons_self n rest) ha hc hb

/-- C4: a lane press with no active note of that lane inside the widest
("ok") window records exactly one miss, resets the combo to 0, and leaves
the note list — hence every note's state — unchanged. -/
theorem C4_thm (lane : ℕ) (notes : List GameNote) (stats : GameStats)
    (h : ∀ n ∈ notes, isActive n = true → n.carril = lane →
      ¬(noteDistance n ≤ windowOk)) :
    checkHit lane notes stats =
      (notes, { stats with combo := 0, misses := stats.misses + 1 },
        some HitResult.miss) := by
  unfold checkHit findClosest
  rw [findClosestAux_none lane notes 0 h]

/-- Witness for C4_thm: a press on lane 0 against a single spawned note
sitting 500 px from the hit line (far outside the 100 px "ok" window). -/
theorem C4_thm_witness :
    checkHit 0 [farNote] initStats =
      ([farNote], { initStats with combo := 0, misses := 1 },
        some HitResult.miss) := by
  apply C4_thm
  intro n hn ha hc
  simp only [List.mem_singleton] at hn
  subst hn
  simp only [noteDistance, farNote, hitZoneY, windowOk]
  norm_num

end Engine

namespace Engine

/-- Once a best candidate is held, the selection loop only ever improves it:
the final distance is at most the held one. -/
theorem findClosestAux_le_best (lane : ℕ) :
    ∀ (l : List GameNote) (i j : ℕ) (bd : ℚ),
      ∃ j2 d2, findClosestAux lane i (some (j, bd)) l = some (j2, d2) ∧ d2 ≤ bd
  | [], _, j, bd => ⟨j, bd, rfl, le_refl bd⟩
  | n :: rest, i, j, bd => by
    unfold findClosestAux
    by_cases hcond : isActive n = true ∧ n.carril = lane ∧
      beats (noteDistance n) (some (j, bd))
    · rw [if_pos hcond]
      obtain ⟨j2, d2, heq, hle⟩ := findClosestAux_le_best lane rest (i + 1) i (noteDistance n)
      exact ⟨j2, d2, heq, le_trans hle (le_of_lt hcond.2.2.1)⟩
    · rw [if_neg hcond]
      exact findClosestAux_le_best lane rest (i + 1) j bd

/-- If some active note of the lane lies within the "ok" window, the loop
returns a candidate at most that far from the hit line. -/
theorem findClosestAux_below (lane : ℕ) :
    ∀ (l : List GameNote) (i : ℕ) (best : Option (ℕ × ℚ)) (n : GameNote),
      n ∈ l → isActive n = true → n.carril = lane → noteDistance n ≤ windowOk →
      ∃ j2 d2, findClosestAux lane i best l = some (j2, d2) ∧ d2 ≤ noteDistance n
  | [], _, _, n, hn, _, _, _ => absurd hn (List.not_mem_nil n)
  | m :: rest, i, best, n, hn, ha, hc, hok => by
    unfold findClosestAux
    rcases List.mem_cons.mp hn with heq | hmem
    · subst heq
      match best with
      | none =>
        rw [if_pos ⟨ha, hc, hok⟩]
        exact findClosestAux_le_best lane rest (i + 1) i (noteDistance n)
      | some (j, bd) =>
        by_cases hlt : noteDistance n < bd
        · rw [if_pos ⟨ha, hc, hlt, hok⟩]
          exact findClosestAux_le_best lane rest (i + 1) i (noteDistance n)
        · rw [if_neg (fun h => hlt h.2.2.1)]
          obtain ⟨j2, d2, heq2, hle⟩ := findClosestAux_le_best lane rest (i + 1) j bd
          exact ⟨j2, d2, heq2, le_trans hle (le_of_not_lt hlt)⟩
    · by_cases hcond : isActive m = true ∧ m.carril = lane ∧ beats (noteDistance m) best
      · rw [if_pos hcond]
        exact findClosestAux_below lane rest (i + 1) _ n hmem ha hc hok
      · rw [if_neg hcond]
        exact findClosestAux_below lane rest (i + 1) best n hmem ha hc hok

/-- Every candidate the loop can return has a non-negative distance. -/
theorem findClosestAux_nonneg (lane : ℕ) :
    ∀ (l : List GameNote) (i : ℕ) (best : Option (ℕ × ℚ)),
      (∀ j d, best = some (j, d) → 0 ≤ d) →
      ∀ j2 d2, findClosestAux lane i best l = some (j2, d2) → 0 ≤ d2
  | [], _, _, hb, j2, d2, heq => hb j2 d2 heq
  | n :: rest, i, best, hb, j2, d2, heq => by
    unfold findClosestAux at heq
    by_cases hcond : isActive n = true ∧ n.carril = lane ∧ beats (noteDistance n) best
    · rw [if_pos hcond] at heq
      refine findClosestAux_nonneg lane rest (i + 1) _ ?_ j2 d2 heq
      intro j d h
      obtain ⟨-, h2⟩ := Prod.mk.injEq .. ▸ Option.some.injEq .. ▸ h
      exact h2 ▸ abs_nonneg _
    · rw [if_neg hcond] at heq
      exact findClosestAux_nonneg lane rest (i + 1) best hb j2 d2 heq

end Engine

namespace Engine

theorem noteDistance_eq_zero {n : GameNote} (hy : n.y = hitZoneY) :
    noteDistance n = 0 := by
  simp [noteDistance, hy]

/-- A press with an active note of the lane exactly on the hit line always
judges perfect. -/
theorem checkHit_perfect (lane : ℕ) (notes : List GameNote) (stats : GameStats)
    (h : ∃ n ∈ notes, isActive n = true ∧ n.carril = lane ∧ n.y = hitZoneY) :
    (checkHit lane notes stats).2.2 = some HitResult.perfect := by
  obtain ⟨n, hn, ha, hc, hy⟩ := h
  have hd0 : noteDistance n = 0 := noteDistance_eq_zero hy
  have hok : noteDistance n ≤ windowOk := by rw [hd0]; norm_num [windowOk]
  obtain ⟨j2, d2, heq, hle⟩ := findClosestAux_below lane notes 0 none n hn ha hc hok
  have hge : 0 ≤ d2 :=
    findClosestAux_nonneg lane notes 0 none (fun j d hjd => by cases hjd) j2 d2 heq
  have hd2 : d2 = 0 := le_antisymm (hd0 ▸ hle) hge
  unfold checkHit findClosest
  rw [heq, hd2]
  simp only [windowPerfect]
  norm_num

end Engine

namespace Engine

theorem isActive_note0 : isActive note0 = true := rfl

theorem isActive_hitNote0 : isActive hitNote0 = false := rfl

theorem noteDistance_note0 : noteDistance note0 = 0 :=
  noteDistance_eq_zero rfl

/-- The selection loop skips a block of already-hit notes. -/
theorem findClosestAux_skip :
    ∀ (k : ℕ) (i : ℕ) (best : Option (ℕ × ℚ)) (l : List GameNote),
      findClosestAux 0 i best (List.replicate k hitNote0 ++ l) =
        findClosestAux 0 (i + k) best l
  | 0, i, best, l => by rw [List.replicate_zero, List.nil_append, Nat.add_zero]
  | k + 1, i, best, l => by
    rw [List.replicate_succ, List.cons_append]
    conv_lhs => unfold findClosestAux
    rw [if_neg (fun h => Bool.false_ne_true h.1)]
    rw [findClosestAux_skip k (i + 1) best l]
    rw [show i + 1 + k = i + (k + 1) from by omega]

/-- The selection loop cannot improve on a zero-distance candidate: further
zero-distance notes do not beat it strictly. -/
theorem findClosestAux_stay :
    ∀ (m : ℕ) (i j : ℕ),
      findClosestAux 0 i (some (j, noteDistance note0)) (List.replicate m note0) =
        some (j, noteDistance note0)
  | 0, _, _ => rfl
  | m + 1, i, j => by
    rw [List.replicate_succ]
    unfold findClosestAux
    rw [if_neg (fun h => lt_irrefl _ h.2.2.1)]
    exact findClosestAux_stay m (i + 1) j

/-- The full selection on `k` hit notes, the on-line note, then `m` more
on-line notes: the first unhit note (index `k`) wins at distance 0. -/
theorem findClosest_run (k m : ℕ) :
    findClosest 0 (List.replicate k hitNote0 ++ note0 :: List.replicate m note0) =
      some (k, noteDistance note0) := by
  unfold findClosest
  rw [findClosestAux_skip k 0 none (note0 :: List.replicate m note0)]
  unfold findClosestAux
  rw [if_pos ⟨isActive_note0, rfl, by rw [noteDistance_note0]; simp [beats, windowOk]⟩]
  rw [Nat.zero_add]
  exact findClosestAux_stay m (k + 1) k

end Engine

namespace Engine

/-- Marking the hit at index `k` turns the first unhit note into a hit one. -/
theorem markHit_run : ∀ (k : ℕ) (l : List GameNote),
    markHit (List.replicate k hitNote0 ++ note0 :: l) k =
      List.replicate k hitNote0 ++ hitNote0 :: l
  | 0, l => rfl
  | k + 1, l => by
    rw [List.replicate_succ, List.cons_append]
    conv_lhs => unfold markHit
    rw [markHit_run k l]
    simp

/-- One perfect press advances the run state by one hit. -/
theorem press_step (k m : ℕ) :
    pressLane0 (List.replicate k hitNote0 ++ note0 :: List.replicate m note0, runStats k) =
      (List.replicate k hitNote0 ++ hitNote0 :: List.replicate m note0, runStats (k + 1)) := by
  simp only [pressLane0, checkHit, findClosest_run, noteDistance_note0]
  norm_num [windowPerfect, calculatePoints, basePoints, runStats, markHit_run,
    perfectRunScore, Nat.lt_succ_self]

end Engine

namespace Engine

/-- After j perfect presses on N on-line notes, the first j notes are hit and
the stats are `runStats j`. -/
theorem run_all : ∀ (N j : ℕ), j ≤ N →
    (pressLane0^[j]) (List.replicate N note0, initStats) =
      (List.replicate j hitNote0 ++ List.replicate (N - j) note0, runStats j)
  | N, 0, _ => by simp [runStats, initStats, perfectRunScore]
  | N, j + 1, h => by
    rw [Function.iterate_succ_apply', run_all N j (Nat.le_of_succ_le h)]
    have hrepl : List.replicate (N - j) note0 =
        note0 :: List.replicate (N - (j + 1)) note0 := by
      rw [show N - j = (N - (j + 1)) + 1 from by omega, List.replicate_succ]
    rw [hrepl, press_step j (N - (j + 1))]
    rw [List.replicate_succ', List.append_assoc, List.singleton_append]

end Engine

/-- C3 (amended): a lane press with an active note of that lane at zero
distance from the hit line always judges perfect; and N consecutive perfect
presses starting from combo 0 score `sum i=1..N of 100 * multiplier(i)` —
the multiplier of the combo value *after* the i-th hit, because the code
computes the points after incrementing the combo (`perfectRunScore`). -/
theorem C3_thm :
    (∀ (lane : ℕ) (notes : List Engine.GameNote) (stats : Engine.GameStats),
        (∃ n ∈ notes, Engine.isActive n = true ∧ n.carril = lane ∧
          n.y = Engine.hitZoneY) →
        (Engine.checkHit lane notes stats).2.2 = some Engine.HitResult.perfect) ∧
    (∀ N : ℕ,
        ((Engine.pressLane0^[N]) (List.replicate N Engine.note0, Engine.initStats)).2.score =
          Engine.perfectRunScore N) := by
  constructor
  · exact Engine.checkHit_perfect
  · intro N
    rw [Engine.run_all N N (le_refl N)]
    rfl

/-- Witness for C3_thm: one zero-distance press judges perfect, and a
3-press perfect run scores `perfectRunScore 3`. -/
theorem C3_thm_witness :
    (Engine.checkHit 0 [Engine.note0] Engine.initStats).2.2 =
        some Engine.HitResult.perfect ∧
    ((Engine.pressLane0^[3]) (List.replicate 3 Engine.note0, Engine.initStats)).2.score =
        Engine.perfectRunScore 3 :=
  ⟨C3_thm.1 0 [Engine.note0] Engine.initStats
      ⟨Engine.note0, List.mem_singleton.mpr rfl, rfl, rfl, rfl⟩,
    C3_thm.2 3⟩

/-- C3: after 10 consecutive perfect presses from combo 0 the engine's score
is 1100 (the 10th hit already pays the x2 multiplier, since points are
computed after the combo increment), while the claim's formula
`sum i=1..10 of 100 * multiplier(i-1)` gives 1000. -/
theorem C3_counterexample :
    ((Engine.pressLane0^[10]) (List.replicate 10 Engine.note0, Engine.initStats)).2.score ≠
      Engine.claimedScore 10 := by
  rw [Engine.run_all 10 10 (le_refl 10)]
  decide

namespace Engine

/-- `checkHit` never decreases score or max combo, and preserves
`combo ≤ maxCombo`. -/
theorem checkHit_stats (lane : ℕ) (notes : List GameNote) (stats : GameStats) :
    stats.score ≤ (checkHit lane notes stats).2.1.score ∧
    stats.maxCombo ≤ (checkHit lane notes stats).2.1.maxCombo ∧
    (stats.combo ≤ stats.maxCombo →
      (checkHit lane notes stats).2.1.combo ≤ (checkHit lane notes stats).2.1.maxCombo) := by
  unfold checkHit
  rcases h : findClosest lane notes with - | ⟨j, d⟩
  · exact ⟨le_refl _, le_refl _, fun _ => Nat.zero_le _⟩
  · simp only []
    split_ifs <;>
      refine ⟨?_, ?_, fun hcm => ?_⟩ <;>
      first
      | omega
      | (simp_all only []; omega)

end Engine

namespace Engine

/-- The per-frame advance loop never touches score or max combo, and can only
lower the combo (to 0, on a passed note). -/
theorem updateNotesAux_stats (speed dt : ℚ) :
    ∀ (l : List GameNote) (stats : GameStats),
      (updateNotesAux speed dt l stats).2.score = stats.score ∧
      (updateNotesAux speed dt l stats).2.maxCombo = stats.maxCombo ∧
      (updateNotesAux speed dt l stats).2.combo ≤ stats.combo
  | [], stats => ⟨rfl, rfl, le_refl _⟩
  | n :: rest, stats => by
    unfold updateNotesAux
    split_ifs with h1 h2
    · obtain ⟨hs, hm, hc⟩ := updateNotesAux_stats speed dt rest
        { stats with combo := 0, misses := stats.misses + 1 }
      exact ⟨hs, hm, le_trans hc (Nat.zero_le _)⟩
    · exact updateNotesAux_stats speed dt rest stats
    · exact updateNotesAux_stats speed dt rest stats

/-- The end-of-song sweep increments only miss counts. -/
theorem endSongNotes_stats :
    ∀ (l : List GameNote) (stats : GameStats),
      (endSongNotes l stats).2.score = stats.score ∧
      (endSongNotes l stats).2.maxCombo = stats.maxCombo ∧
      (endSongNotes l stats).2.combo = stats.combo
  | [], stats => ⟨rfl, rfl, rfl⟩
  | n :: rest, stats => by
    unfold endSongNotes
    split_ifs with h1
    · exact endSongNotes_stats rest { stats with misses := stats.misses + 1 }
    · exact endSongNotes_stats rest stats

/-- Every engine transition keeps score and max combo non-decreasing and
preserves `combo ≤ maxCombo`. -/
theorem applyEvent_stats (duration : ℚ) (s : EngineState) (e : GameEvent) :
    s.stats.score ≤ (applyEvent duration s e).stats.score ∧
    s.stats.maxCombo ≤ (applyEvent duration s e).stats.maxCombo ∧
    (s.stats.combo ≤ s.stats.maxCombo →
      (applyEvent duration s e).stats.combo ≤ (applyEvent duration s e).stats.maxCombo) := by
  cases e with
  | press lane => exact checkHit_stats lane s.notes s.stats
  | frame gameTime dt =>
    unfold applyEvent
    simp only []
    split_ifs with h1
    · obtain ⟨hs, hm, hc⟩ := endSongNotes_stats s.notes s.stats
      exact ⟨le_of_eq hs.symm, le_of_eq hm.symm, fun hcm => by rw [hc, hm]; exact hcm⟩
    · obtain ⟨hs, hm, hc⟩ := updateNotesAux_stats noteSpeed dt
        (s.notes.take s.nextIdx ++ (spawnFrom gameTime (s.notes.drop s.nextIdx)).1) s.stats
      exact ⟨le_of_eq hs.symm, le_of_eq hm.symm,
        fun hcm => by rw [hm]; exact le_trans hc hcm⟩

end Engine

/-- C10: from the all-zero initial stats, under any sequence of lane presses
and frames (including passed-note misses and the end-of-song sweep), every
reachable state satisfies `combo ≤ maxCombo`; and every single transition
keeps both `score` and `maxCombo` non-decreasing. -/
theorem C10_thm :
    (∀ (duration : ℚ) (song : List SongNote) (s : Engine.EngineState),
        Engine.Reachable duration (Engine.initState song) s →
        s.stats.combo ≤ s.stats.maxCombo) ∧
    (∀ (duration : ℚ) (s : Engine.EngineState) (e : Engine.GameEvent),
        s.stats.score ≤ (Engine.applyEvent duration s e).stats.score ∧
        s.stats.maxCombo ≤ (Engine.applyEvent duration s e).stats.maxCombo) := by
  constructor
  · intro duration song s hreach
    induction hreach with
    | refl => exact Nat.zero_le _
    | step s e _ ih => exact (Engine.applyEvent_stats duration s e).2.2 ih
  · intro duration s e
    exact ⟨(Engine.applyEvent_stats duration s e).1, (Engine.applyEvent_stats duration s e).2.1⟩

/-- Witness for C10_thm: the invariant at the initial state of an empty
timeline, and monotonicity across one concrete press. -/
theorem C10_thm_witness :
    (Engine.initState []).stats.combo ≤ (Engine.initState []).stats.maxCombo ∧
    (Engine.initState []).stats.score ≤
      (Engine.applyEvent 1 (Engine.initState []) (Engine.GameEvent.press 0)).stats.score ∧
    (Engine.initState []).stats.maxCombo ≤
      (Engine.applyEvent 1 (Engine.initState []) (Engine.GameEvent.press 0)).stats.maxCombo :=
  ⟨C10_thm.1 1 [] (Engine.initState []) Engine.Reachable.refl,
    (C10_thm.2 1 (Engine.initState []) (Engine.GameEvent.press 0)).1,
    (C10_thm.2 1 (Engine.initState []) (Engine.GameEvent.press 0)).2⟩

namespace AudioPlayer

/-- Pause/resume re-anchoring: regardless of how long the pause lasted, the
first reading after `resume` equals the reading at `pause` time plus the
calibration offset (in seconds) — the offset is applied a second time, since
`pausedAtRef` already contained it.  With a zero offset the reading continues
from exactly the pause-time reading, and subsequent playing time adds on top. -/
theorem resume_reading (s : PlayerState) (gap : ℚ) (h : s.isPlaying = true) :
    getCurrentTime (resume (advance gap (pause s))) =
      getCurrentTime s + s.calibrationOffset / 1000 := by
  simp only [pause, resume, advance, getCurrentTime, h]
  norm_num

end AudioPlayer

namespace AudioPlayer

/-- While playing, a clock advance adds directly to the reading. -/
theorem advance_reading (s : PlayerState) (t : ℚ) (h : s.isPlaying = true) :
    getCurrentTime (advance t s) = getCurrentTime s + t := by
  simp only [advance, getCurrentTime, h]
  norm_num
  ring

end AudioPlayer

/-- C9: with a 100 ms calibration offset, pausing at reading 10.0 s and
resuming after a 5 s gap makes the next reading 10.1 s, not 10.0 s: the
offset (already included in the stored pause position) is added a second
time by the post-resume reading. -/
theorem C9_counterexample :
    AudioPlayer.getCurrentTime AudioPlayer.c9State = 10 ∧
    AudioPlayer.getCurrentTime
        (AudioPlayer.resume (AudioPlayer.advance 5 (AudioPlayer.pause AudioPlayer.c9State))) ≠
      10 := by
  constructor
  · norm_num [AudioPlayer.getCurrentTime, AudioPlayer.c9State]
  · rw [AudioPlayer.resume_reading AudioPlayer.c9State 5 rfl]
    norm_num [AudioPlayer.getCurrentTime, AudioPlayer.c9State]

/-- C9 (amended): for every playing state and every real-time gap, the first
reading after pause/gap/resume equals the pause-time reading plus the
calibration offset in seconds — independent of the gap; when the calibration
offset is zero it continues from exactly the pause-time reading, plus any
subsequently elapsed playing time. -/
theorem C9_thm :
    ∀ (s : AudioPlayer.PlayerState) (gap t : ℚ), s.isPlaying = true →
      AudioPlayer.getCurrentTime
          (AudioPlayer.resume (AudioPlayer.advance gap (AudioPlayer.pause s))) =
        AudioPlayer.getCurrentTime s + s.calibrationOffset / 1000 ∧
      (s.calibrationOffset = 0 →
        AudioPlayer.getCurrentTime
            (AudioPlayer.advance t
              (AudioPlayer.resume (AudioPlayer.advance gap (AudioPlayer.pause s)))) =
          AudioPlayer.getCurrentTime s + t) := by
  intro s gap t h
  refine ⟨AudioPlayer.resume_reading s gap h, fun hc => ?_⟩
  have h1 : (AudioPlayer.pause s).isPlaying = false := by
    simp [AudioPlayer.pause, h]
  have h2 : (AudioPlayer.advance gap (AudioPlayer.pause s)).isPlaying = false := by
    simp [AudioPlayer.advance, h1]
  have h3 :
      (AudioPlayer.resume (AudioPlayer.advance gap (AudioPlayer.pause s))).isPlaying = true := by
    simp [AudioPlayer.resume, h2]
  rw [AudioPlayer.advance_reading _ t h3, AudioPlayer.resume_reading s gap h, hc]
  norm_num

/-- Witness for C9_thm: a zero-offset state reading 10 s, paused, resumed
after a 5 s gap, then played 2 s more, reads 12 s. -/
theorem C9_thm_witness :
    AudioPlayer.getCurrentTime
        (AudioPlayer.advance 2
          (AudioPlayer.resume (AudioPlayer.advance 5 (AudioPlayer.pause AudioPlayer.c9ZeroState)))) =
      AudioPlayer.getCurrentTime AudioPlayer.c9ZeroState + 2 :=
  (C9_thm AudioPlayer.c9ZeroState 5 2 rfl).2 rfl

namespace MidiParser

/-- Symbolic evaluation of `parseHeader` on a buffer of at least 14 bytes. -/
theorem parseHeader_eval (a0 a1 a2 a3 a4 a5 a6 a7 a8 a9 a10 a11 a12 a13 : ℕ)
    (rest : List ℕ) :
    parseHeader (a0 :: a1 :: a2 :: a3 :: a4 :: a5 :: a6 :: a7 :: a8 :: a9 ::
        a10 :: a11 :: a12 :: a13 :: rest) =
      if ¬(a0 = 77 ∧ a1 = 84 ∧ a2 = 104 ∧ a3 = 100) then
        .error (.formatError "No es un archivo MIDI valido")
      else if a4 * 16777216 + a5 * 65536 + a6 * 256 + a7 ≠ 6 then
        .error (.formatError "Header MIDI invalido")
      else if Nat.testBit (a12 * 256 + a13) 15 then
        .error (.formatError "SMPTE timing no soportado")
      else .ok (a8 * 256 + a9, a10 * 256 + a11, a12 * 256 + a13) := rfl

end MidiParser

/-- C5: on a buffer holding the full 14-byte header, `parseHeader` throws a
format error exactly when the 4-byte magic is not "MThd" (codes 77, 84, 104,
100), or the declared header length differs from 6, or bit 15 of the 16-bit
time-division field is set; otherwise it succeeds and returns the format
type, the track count and the resolution. -/
theorem C5_thm (a0 a1 a2 a3 a4 a5 a6 a7 a8 a9 a10 a11 a12 a13 : ℕ)
    (rest : List ℕ) :
    ((a0 = 77 ∧ a1 = 84 ∧ a2 = 104 ∧ a3 = 100) ∧
      a4 * 16777216 + a5 * 65536 + a6 * 256 + a7 = 6 ∧
      Nat.testBit (a12 * 256 + a13) 15 = false →
      MidiParser.parseHeader (a0 :: a1 :: a2 :: a3 :: a4 :: a5 :: a6 :: a7 ::
          a8 :: a9 :: a10 :: a11 :: a12 :: a13 :: rest) =
        .ok (a8 * 256 + a9, a10 * 256 + a11, a12 * 256 + a13)) ∧
    ((∃ msg, MidiParser.parseHeader (a0 :: a1 :: a2 :: a3 :: a4 :: a5 :: a6 ::
        a7 :: a8 :: a9 :: a10 :: a11 :: a12 :: a13 :: rest) =
          .error (.formatError msg)) ↔
      ¬((a0 = 77 ∧ a1 = 84 ∧ a2 = 104 ∧ a3 = 100) ∧
        a4 * 16777216 + a5 * 65536 + a6 * 256 + a7 = 6 ∧
        Nat.testBit (a12 * 256 + a13) 15 = false)) := by
  rw [MidiParser.parseHeader_eval]
  constructor
  · rintro ⟨h1, h2, h3⟩
    rw [if_neg (not_not.mpr h1), if_neg (by simp [h2]), if_neg (by simp [h3])]
  · constructor
    · rintro ⟨msg, hmsg⟩ ⟨h1, h2, h3⟩
      rw [if_neg (not_not.mpr h1), if_neg (by simp [h2]), if_neg (by simp [h3])] at hmsg
      cases hmsg
    · intro hbad
      by_cases h1 : a0 = 77 ∧ a1 = 84 ∧ a2 = 104 ∧ a3 = 100
      · by_cases h2 : a4 * 16777216 + a5 * 65536 + a6 * 256 + a7 = 6
        · by_cases h3 : Nat.testBit (a12 * 256 + a13) 15 = false
          · exact absurd ⟨h1, h2, h3⟩ hbad
          · refine ⟨"SMPTE timing no soportado", ?_⟩
            rw [if_neg (not_not.mpr h1), if_neg (by simp [h2]),
              if_pos (Bool.not_eq_false _ ▸ h3 : Nat.testBit (a12 * 256 + a13) 15 = true)]
        · exact ⟨"Header MIDI invalido", by
            rw [if_neg (not_not.mpr h1), if_pos h2]⟩
      · exact ⟨"No es un archivo MIDI valido", by rw [if_pos h1]⟩

/-- Witness for C5_thm: the header bytes "MThd", length 6, format 1, one
track, resolution 192 parse successfully to (1, 1, 192). -/
theorem C5_thm_witness :
    MidiParser.parseHeader [77, 84, 104, 100, 0, 0, 0, 6, 0, 1, 0, 1, 0, 192] =
      .ok (1, 1, 192) := by
  have h := (C5_thm 77 84 104 100 0 0 0 6 0 1 0 1 0 192 []).1
    ⟨⟨rfl, rfl, rfl, rfl⟩, by norm_num, by decide⟩
  simpa using h

/-- C6: in per-instrument note extraction, a Note-Off for an open note at
exactly the opening tick emits a note with the minimum nonzero sustain
`max 1 (resolution / 8)` (1/8 beat, at least one tick); a Note-Off at a
strictly later tick emits the elapsed ticks as the duration.  Both remove the
note from the open map. -/
theorem C6_thm (resolution : ℕ) (noteMap : ℕ → Option ℕ)
    (st : List MidiParser.ParsedNote × List (ℕ × ℕ)) (e : MidiParser.NoteEvent)
    (carril startTick : ℕ)
    (hmap : noteMap e.note = some carril) (hoff : e.isOn = false)
    (hopen : MidiParser.mapGet st.2 e.note = some startTick) :
    (e.tick = startTick →
      MidiParser.extractStep resolution noteMap st e =
        (st.1 ++ [⟨startTick, carril, max 1 (resolution / 8)⟩],
          MidiParser.mapDelete st.2 e.note) ∧
      1 ≤ max 1 (resolution / 8)) ∧
    (startTick < e.tick →
      MidiParser.extractStep resolution noteMap st e =
        (st.1 ++ [⟨startTick, carril, e.tick - startTick⟩],
          MidiParser.mapDelete st.2 e.note)) := by
  have hbody : MidiParser.extractStep resolution noteMap st e =
      if startTick < e.tick then
        (st.1 ++ [⟨startTick, carril, e.tick - startTick⟩],
          MidiParser.mapDelete st.2 e.note)
      else if e.tick = startTick then
        (st.1 ++ [⟨startTick, carril, max 1 (resolution / 8)⟩],
          MidiParser.mapDelete st.2 e.note)
      else (st.1, MidiParser.mapDelete st.2 e.note) := by
    simp [MidiParser.extractStep, hmap, hoff, hopen]
  constructor
  · intro ht
    refine ⟨?_, le_max_left 1 _⟩
    rw [hbody, if_neg (by omega), if_pos ht]
  · intro ht
    rw [hbody, if_pos ht]

/-- Witness for C6_thm: note 96 opened at tick 100 and closed at the same
tick yields a sustain of 24 ticks (192/8) at lane 0; closed at tick 250 it
yields the 150 elapsed ticks. -/
theorem C6_thm_witness :
    (MidiParser.extractStep 192 c6Map c6State c6Event =
        ([⟨100, 0, max 1 (192 / 8)⟩], MidiParser.mapDelete c6State.2 96) ∧
      1 ≤ max 1 (192 / 8)) ∧
    MidiParser.extractStep 192 c6Map c6State c6EventLater =
      ([⟨100, 0, 150⟩], MidiParser.mapDelete c6State.2 96) := by
  refine ⟨(C6_thm 192 c6Map c6State c6Event 0 100 rfl rfl rfl).1 rfl, ?_⟩
  have h := (C6_thm 192 c6Map c6State c6EventLater 0 100 rfl rfl rfl).2 (by norm_num [c6EventLater])
  simpa [c6EventLater] using h

/-- C7: any note line whose lane code is ≥ 5 contributes no note.  The
concrete line `100 = N 6 0` leaves the note list unchanged, while
`200 = N 2 480` appends exactly one note at tick 200, lane 2, sustain 480
ticks; that sustain converts to a positive duration (1.25 s at the default
120 BPM with resolution 192). -/
theorem C7_thm :
    (∀ (line : String) (notes : List ChartParser.ChartNote) (beat carril sustain : ℕ),
        ChartParser.searchNote line.toList = some (beat, carril, sustain) →
        5 ≤ carril → ChartParser.parseNote line notes = notes) ∧
    (∀ notes : List ChartParser.ChartNote,
        ChartParser.parseNote "100 = N 6 0" notes = notes) ∧
    (∀ notes : List ChartParser.ChartNote,
        ChartParser.parseNote "200 = N 2 480" notes = notes ++ [⟨200, 2, 480⟩]) ∧
    0 < ChartParser.beatsDurationToSeconds [] 192 200 480 := by
  have hmatch1 : ChartParser.searchNote ("100 = N 6 0").toList = some (100, 6, 0) := by
    decide
  have hmatch2 : ChartParser.searchNote ("200 = N 2 480").toList = some (200, 2, 480) := by
    decide
  refine ⟨?_, ?_, ?_, ?_⟩
  · intro line notes beat carril sustain hs hc
    unfold ChartParser.parseNote
    rw [hs]
    simp only []
    rw [if_neg (by omega)]
  · intro notes
    unfold ChartParser.parseNote
    rw [hmatch1]
    simp only []
    rw [if_neg (by norm_num)]
  · intro notes
    unfold ChartParser.parseNote
    rw [hmatch2]
    simp only []
    rw [if_pos (by norm_num)]
  · unfold ChartParser.beatsDurationToSeconds
    rw [if_neg (by norm_num)]
    have he := round3_eq (((480 : ℕ) : ℚ) / 192 / ChartParser.activeBPM 200 120 [] * 60)
      1250 (by push_cast; norm_num [ChartParser.activeBPM])
      (by push_cast; norm_num [ChartParser.activeBPM])
    rw [he]
    norm_num

/-- Witness for C7_thm's first conjunct at a concrete lane-5 line: the line
`10 = N 5 0` (a forced-strum modifier) contributes no note. -/
theorem C7_thm_witness :
    ChartParser.parseNote "10 = N 5 0" [] = [] :=
  C7_thm.1 "10 = N 5 0" [] 10 5 0 (by decide) (by norm_num)

namespace ChartParser

/-- The active BPM is positive whenever the default and all entries are. -/
theorem activeBPM_pos : ∀ (track : List BPMChange) (beat : ℕ) (acc : ℚ),
    0 < acc → (∀ b ∈ track, 0 < b.bpm) → 0 < activeBPM beat acc track
  | [], _, _, hacc, _ => hacc
  | s :: rest, beat, acc, hacc, hpos => by
    unfold activeBPM
    split_ifs with h
    · exact activeBPM_pos rest beat s.bpm (hpos s (List.mem_cons_self s rest))
        (fun b hb => hpos b (List.mem_cons_of_mem s hb))
    · exact hacc

/-- Sustain conversion is non-negative for valid tempo entries. -/
theorem beatsDurationToSeconds_nonneg (track : List BPMChange) (res : ℚ)
    (hres : 0 ≤ res) (hpos : ∀ b ∈ track, 0 < b.bpm) (startBeat durationBeats : ℕ) :
    0 ≤ beatsDurationToSeconds track res startBeat durationBeats := by
  unfold beatsDurationToSeconds
  split_ifs with h
  · exact le_refl 0
  · apply round3_nonneg
    have hbpm := activeBPM_pos track startBeat 120 (by norm_num) hpos
    exact mul_nonneg (div_nonneg (div_nonneg (Nat.cast_nonneg _) hres) hbpm.le)
      (by norm_num)

/-- The text decoder's timeline is sorted by time (it sorts explicitly) and
has non-negative sustains. -/
theorem chart_convert_props (st : ChartState) (d : Difficulty) (sd : SongData)
    (hpos : ∀ b ∈ st.bpmTrack, 0 < b.bpm)
    (h : convertToSongData st d = some sd) :
    sd.notes.Pairwise (fun a b => a.segundo ≤ b.segundo) ∧
      ∀ n ∈ sd.notes, 0 ≤ n.duracion := by
  unfold convertToSongData at h
  simp only [] at h
  split_ifs at h with hne
  rw [Option.some.injEq] at h
  subst h
  refine ⟨List.sorted_insertionSort _ _, fun n hn => ?_⟩
  have hmem := (List.perm_insertionSort
    (fun a b : SongNote => a.segundo ≤ b.segundo) _).mem_iff.mp hn
  obtain ⟨cn, hcn, rfl⟩ := List.mem_map.mp hmem
  exact beatsDurationToSeconds_nonneg st.bpmTrack _ (Nat.cast_nonneg _) hpos _ _

end ChartParser

namespace MidiParser

/-- The extraction output is sorted ascending by tick (it sorts explicitly). -/
theorem extractNotes_sorted (resolution : ℕ) (noteMap : ℕ → Option ℕ)
    (events : List NoteEvent) :
    (extractNotes resolution noteMap events).Pairwise (fun a b => a.tick ≤ b.tick) := by
  unfold extractNotes
  exact List.sorted_insertionSort _ _

theorem extractNotesFrom_sorted (resolution : ℕ)
    (tracks : List (String × List NoteEvent)) (difficulty : Difficulty)
    (trackName : String) :
    (extractNotesFrom resolution tracks difficulty trackName).Pairwise
      (fun a b => a.tick ≤ b.tick) := by
  unfold extractNotesFrom
  rcases h : selectEvents tracks trackName with - | events
  · exact List.Pairwise.nil
  · exact extractNotes_sorted resolution _ events

/-- The binary decoder's timeline is sorted by time (tick order is preserved
by the monotone conversion) and has non-negative sustains. -/
theorem midi_convert_props (tempoTrack : List TempoEvent) (resolution : ℕ)
    (tracks : List (String × List NoteEvent)) (difficulty : Difficulty)
    (trackName : String) (sd : SongData)
    (hres : 0 < resolution) (hpos : ∀ e ∈ tempoTrack, 0 < e.tempo)
    (hsort : tempoTrack.Pairwise (fun a b => a.tick ≤ b.tick))
    (h : convertToSongData tempoTrack resolution tracks difficulty trackName = some sd) :
    sd.notes.Pairwise (fun a b => a.segundo ≤ b.segundo) ∧
      ∀ n ∈ sd.notes, 0 ≤ n.duracion := by
  unfold convertToSongData at h
  simp only [] at h
  split_ifs at h with hne
  rw [Option.some.injEq] at h
  subst h
  have hresq : (0 : ℚ) < (resolution : ℚ) := by exact_mod_cast hres
  refine ⟨?_, fun n hn => ?_⟩
  · exact List.Pairwise.map _
      (fun a b hab => ticksToSeconds_mono tempoTrack hresq hpos hsort hab)
      (extractNotesFrom_sorted resolution tracks difficulty trackName)
  · obtain ⟨pn, hpn, rfl⟩ := List.mem_map.mp hn
    show 0 ≤ ticksDurationToSeconds tempoTrack (resolution : ℚ) pn.tick pn.duration
    unfold ticksDurationToSeconds
    have := ticksToSeconds_mono tempoTrack hresq hpos hsort
      (Nat.le_add_right pn.tick pn.duration)
    linarith

end MidiParser

/-- C8: for every timeline produced by either decoder's `convertToSongData`
(on a valid tempo map: positive resolution and tempos, tempo positions
ascending), the notes are sorted ascending by time-in-seconds and every
sustain duration is non-negative. -/
theorem C8_thm :
    (∀ (st : ChartParser.ChartState) (d : Difficulty) (sd : SongData),
        (∀ b ∈ st.bpmTrack, 0 < b.bpm) →
        ChartParser.convertToSongData st d = some sd →
        sd.notes.Pairwise (fun a b => a.segundo ≤ b.segundo) ∧
          ∀ n ∈ sd.notes, 0 ≤ n.duracion) ∧
    (∀ (tempoTrack : List MidiParser.TempoEvent) (resolution : ℕ)
        (tracks : List (String × List MidiParser.NoteEvent))
        (d : Difficulty) (trackName : String) (sd : SongData),
        0 < resolution → (∀ e ∈ tempoTrack, 0 < e.tempo) →
        tempoTrack.Pairwise (fun a b => a.tick ≤ b.tick) →
        MidiParser.convertToSongData tempoTrack resolution tracks d trackName = some sd →
        sd.notes.Pairwise (fun a b => a.segundo ≤ b.segundo) ∧
          ∀ n ∈ sd.notes, 0 ≤ n.duracion) :=
  ⟨fun st d sd hpos h => ChartParser.chart_convert_props st d sd hpos h,
    fun tt res tr d tn sd hres hpos hsort h =>
      MidiParser.midi_convert_props tt res tr d tn sd hres hpos hsort h⟩

theorem c8_chart_eval :
    ChartParser.convertToSongData c8ChartState Difficulty.easy = some c8ChartSd := by
  have h0 : ChartParser.beatsToSeconds [] 192 0 = 0 := by
    unfold ChartParser.beatsToSeconds
    have harg : ((0 : ℕ) : ℚ) / 192 / ChartParser.activeBPM 0 120 [] * 60 = 0 := by
      norm_num [ChartParser.activeBPM]
    rw [harg, round3_zero]
  unfold ChartParser.convertToSongData
  simp [c8ChartState, ChartParser.diffNotes, c8ChartSd, List.insertionSort,
    List.orderedInsert, h0, ChartParser.beatsDurationToSeconds]

theorem c8_midi_eval :
    MidiParser.convertToSongData [] 192 c8Tracks Difficulty.expert "PART GUITAR" =
      some c8MidiSd := by
  have hex : MidiParser.extractNotesFrom 192 c8Tracks Difficulty.expert "PART GUITAR" =
      [⟨0, 0, 96⟩] := by decide
  unfold MidiParser.convertToSongData
  rw [hex]
  rw [if_neg (by simp)]
  simp only [List.map, c8MidiSd]
  norm_num [MidiParser.ticksToSeconds, MidiParser.ticksDurationToSeconds]

/-- Witness for C8_thm: both halves applied at one-note concrete inputs. -/
theorem C8_thm_witness :
    (c8ChartSd.notes.Pairwise (fun a b => a.segundo ≤ b.segundo) ∧
      ∀ n ∈ c8ChartSd.notes, 0 ≤ n.duracion) ∧
    (c8MidiSd.notes.Pairwise (fun a b => a.segundo ≤ b.segundo) ∧
      ∀ n ∈ c8MidiSd.notes, 0 ≤ n.duracion) :=
  ⟨C8_thm.1 c8ChartState Difficulty.easy c8ChartSd
      (by intro b hb; cases hb) c8_chart_eval,
    C8_thm.2 [] 192 c8Tracks Difficulty.expert "PART GUITAR" c8MidiSd
      (by norm_num) (by intro e he; cases he) List.Pairwise.nil c8_midi_eval⟩
